import Mathlib

/-!
Shallow embedding of the arb-bot scanner (src/matcher.py, src/arbitrage.py,
src/stats_writer.py, src/paper_trader.py, src/platforms/) and proofs of the
spec's claims about it.  Python floats are modelled as exact rationals,
POSIX timestamps as rationals (seconds), and the stats JSON file as an
inductive state (absent / corrupt / parsed store).
-/

set_option maxRecDepth 8192

namespace ArbBot

/-- A normalized market quote (the `Market` shape of `platforms/base.py`):
`id`, `question`, and the two prices, either of which may be absent
(`None`). -/
structure Market where
  id : String
  question : String
  yes_price : Option ℚ
  no_price : Option ℚ
  deriving DecidableEq

/-- A normalized event (the `Event` shape of `platforms/base.py`): `id`,
`title`, resolution `end_date` (POSIX seconds), and its markets.  The
`platform` and `raw_data` fields are omitted: the scanner reads them only to
format alert links and debug output, never in matching, detection, cooldown
or stats arithmetic. -/
structure Event where
  id : String
  title : String
  end_date : ℚ
  markets : List Market
  deriving DecidableEq

/-! ### difflib.SequenceMatcher, as called by `calculate_title_similarity`

`matcher.py` scores titles with
`SequenceMatcher(None, title1.lower(), title2.lower()).ratio()`.  The
embedding below follows CPython's `difflib` with empty junk sets: no junk is
passed, and the `autojunk` heuristic only activates on second sequences of
200 characters or more, far above event-title lengths, so the junk guards in
`find_longest_match` are vacuous. -/

/-- Positions of character `c` in `b`, ascending: the `b2j` index difflib
builds in `__chain_b`. -/
def b2j (b : List Char) (c : Char) : List ℕ :=
  (List.range b.length).filter (fun j => b.getD j ' ' = c)

/-- One row of `find_longest_match`'s dynamic program: the
`for j in b2j.get(a[i], [])` loop, with the `continue` below `blo` and the
`break` at `bhi` (positions are ascending).  `k = j2len.get(j-1, 0) + 1`
looks up the previous diagonal; for `j = 0` Python looks up key `-1`, which
is absent, hence the explicit zero.  A new best block of length `k` ending
at `(i, j)` starts at `(i-k+1, j-k+1)`, written `(i+1-k, j+1-k)` to keep
natural subtraction exact. -/
def flm_row (j2len : ℕ → ℕ) (blo bhi i : ℕ) :
    List ℕ → (ℕ → ℕ) → ℕ × ℕ × ℕ → ((ℕ → ℕ) × (ℕ × ℕ × ℕ))
  | [], new, best => (new, best)
  | j :: js, new, best =>
    if j < blo then flm_row j2len blo bhi i js new best
    else if bhi ≤ j then (new, best)
    else
      let k := (if j = 0 then 0 else j2len (j - 1)) + 1
      let new' := fun j' => if j' = j then k else new j'
      let best' := if best.2.2 < k then (i + 1 - k, j + 1 - k, k) else best
      flm_row j2len blo bhi i js new' best'

/-- The outer `for i in range(alo, ahi)` loop of `find_longest_match`,
threading `j2len` (reset to empty each row) and the best block. -/
def flm_rows (a b : List Char) (blo bhi : ℕ) :
    List ℕ → (ℕ → ℕ) → ℕ × ℕ × ℕ → ℕ × ℕ × ℕ
  | [], _, best => best
  | i :: rest, j2len, best =>
    let step := flm_row j2len blo bhi i (b2j b (a.getD i ' ')) (fun _ => 0) best
    flm_rows a b blo bhi rest step.1 step.2

/-- The leftward extension `while` loop of `find_longest_match` (its
junk test is vacuously false here, see above). -/
def flm_extend_low (a b : List Char) (alo blo besti bestj bestsize : ℕ) :
    ℕ × ℕ × ℕ :=
  if h : alo < besti ∧ blo < bestj ∧
      a.getD (besti - 1) ' ' = b.getD (bestj - 1) ' ' then
    flm_extend_low a b alo blo (besti - 1) (bestj - 1) (bestsize + 1)
  else (besti, bestj, bestsize)
termination_by besti
decreasing_by exact Nat.sub_lt (Nat.lt_of_le_of_lt (Nat.zero_le _) h.1) Nat.one_pos

/-- The rightward extension `while` loop of `find_longest_match` (again with
a vacuous junk test). -/
def flm_extend_high (a b : List Char) (ahi bhi besti bestj bestsize : ℕ) : ℕ :=
  if h : besti + bestsize < ahi ∧ bestj + bestsize < bhi ∧
      a.getD (besti + bestsize) ' ' = b.getD (bestj + bestsize) ' ' then
    flm_extend_high a b ahi bhi besti bestj (bestsize + 1)
  else bestsize
termination_by ahi - (besti + bestsize)
decreasing_by exact Nat.sub_succ_lt_self _ _ h.1

/-- difflib's `find_longest_match a b alo ahi blo bhi`, returning the
longest matching block `(i, j, size)` in `a[alo:ahi] × b[blo:bhi]`. -/
def find_longest_match (a b : List Char) (alo ahi blo bhi : ℕ) : ℕ × ℕ × ℕ :=
  let main := flm_rows a b blo bhi (List.range' alo (ahi - alo)) (fun _ => 0) (alo, blo, 0)
  let low := flm_extend_low a b alo blo main.1 main.2.1 main.2.2
  (low.1, low.2.1, flm_extend_high a b ahi bhi low.1 low.2.1 low.2.2)

/-- Total matched characters over difflib's `get_matching_blocks`
recursion — `ratio` only needs the sum `M` of the block sizes.  `fuel`
bounds the recursion; `|a| + |b| + 1` always suffices, because every
recursive call is guarded by a block of positive size and so strictly
shrinks the combined region. -/
def matching_blocks_total (a b : List Char) : ℕ → ℕ → ℕ → ℕ → ℕ → ℕ
  | 0, _, _, _, _ => 0
  | fuel + 1, alo, ahi, blo, bhi =>
    let m := find_longest_match a b alo ahi blo bhi
    if m.2.2 = 0 then 0
    else
      matching_blocks_total a b fuel alo m.1 blo m.2.1 + m.2.2 +
        matching_blocks_total a b fuel (m.1 + m.2.2) ahi (m.2.1 + m.2.2) bhi

/-- `calculate_title_similarity` (src/matcher.py lines 6-13):
`SequenceMatcher(None, title1.lower(), title2.lower()).ratio()`, which is
`2*M/T` for `M` total matched characters and `T` the combined length of the
two lower-cased titles, and `1.0` when `T = 0`.  Lower-casing is
`String.toLower` (ASCII case folding, agreeing with Python on ASCII
titles). -/
def calculate_title_similarity (title1 title2 : String) : ℚ :=
  let a := title1.toLower.data
  let b := title2.toLower.data
  let m := matching_blocks_total a b (a.length + b.length + 1) 0 a.length 0 b.length
  if a.length + b.length = 0 then 1
  else (m : ℚ) * 2 / ((a.length : ℚ) + (b.length : ℚ))

/-! ### match_events (src/matcher.py lines 16-103)

The debug branches of `match_events` only print; they never change
`matched_pairs`, so the embedding is the `debug=False` data path. -/

/-- `date_diff_seconds` between two events (src/matcher.py line 58):
`abs((pm_end_date - kalshi_end_date).total_seconds())`. -/
def date_diff_seconds (e1 e2 : Event) : ℚ :=
  |e1.end_date - e2.end_date|

/-- The date filter that a candidate must pass (src/matcher.py lines 58-64):
the candidate survives when its resolution-date difference in seconds does
not exceed `date_tolerance_days * 24 * 60 * 60`. -/
def in_tolerance (pm k : Event) (date_tolerance_days : ℤ) : Prop :=
  ¬ date_diff_seconds pm k > ((date_tolerance_days * 24 * 60 * 60 : ℤ) : ℚ)

instance (pm k : Event) (d : ℤ) : Decidable (in_tolerance pm k d) :=
  inferInstanceAs (Decidable (¬ _ > _))

/-- The inner candidate scan of `match_events` (src/matcher.py lines 48-82):
walk the target events keeping `(best_match, best_similarity)`, initially
`(None, 0.0)`; skip candidates outside the date tolerance; a surviving
candidate replaces the running best exactly when
`similarity >= title_similarity_threshold and similarity > best_similarity`. -/
def select_best_match (pm : Event) (thr : ℚ) (tol : ℤ) :
    List Event → Option Event → ℚ → Option Event
  | [], best, _ => best
  | k :: ks, best, bestSim =>
    if date_diff_seconds pm k > ((tol * 24 * 60 * 60 : ℤ) : ℚ) then
      select_best_match pm thr tol ks best bestSim
    else if thr ≤ calculate_title_similarity pm.title k.title ∧
        bestSim < calculate_title_similarity pm.title k.title then
      select_best_match pm thr tol ks (some k)
        (calculate_title_similarity pm.title k.title)
    else select_best_match pm thr tol ks best bestSim

/-- `match_events` (src/matcher.py): for each source event in order, run the
candidate scan over all target events and append `(pm_event, best_match)`
when a best match was found. -/
def match_events (polymarket_events kalshi_events : List Event)
    (title_similarity_threshold : ℚ) (date_tolerance_days : ℤ) :
    List (Event × Event) :=
  match polymarket_events with
  | [] => []
  | pm :: rest =>
    match select_best_match pm title_similarity_threshold date_tolerance_days
        kalshi_events none 0 with
    | some k =>
      (pm, k) :: match_events rest kalshi_events title_similarity_threshold
        date_tolerance_days
    | none =>
      match_events rest kalshi_events title_similarity_threshold
        date_tolerance_days

/-! ### find_arbitrage_opportunities (src/arbitrage.py) -/

/-- An opportunity record as built by `find_arbitrage_opportunities`
(src/arbitrage.py lines 73-86 and 99-112).  The `kalshi_*` names are the
source's generic second-platform names (actually Manifold data). -/
structure Opportunity where
  pm_event : Event
  kalshi_event : Event
  pm_market : Market
  kalshi_market : Market
  direction : String
  pm_price : ℚ
  kalshi_price : ℚ
  total_cost : ℚ
  total_cost_with_fees : ℚ
  payout : ℚ
  profit : ℚ
  profit_pct : ℚ
  deriving DecidableEq

/-- One iteration of `find_arbitrage_opportunities`'s loop
(src/arbitrage.py lines 44-112): the opportunities one matched pair
contributes.  The pair contributes nothing (`continue`) when either event
has no markets or any of the four first-market prices is `None`; otherwise
each of the two scenarios is emitted when its
`profit_pct >= min_profit_pct`. -/
def detect_pair (pm_event kalshi_event : Event)
    (pm_fee_rate kalshi_fee_rate min_profit_pct : ℚ) : List Opportunity :=
    match pm_event.markets, kalshi_event.markets with
    | [], _ => []
    | _, [] => []
    | pm_market :: _, kalshi_market :: _ =>
      match pm_market.yes_price, pm_market.no_price,
          kalshi_market.yes_price, kalshi_market.no_price with
      | some pm_yes, some pm_no, some kalshi_yes, some kalshi_no =>
        let cost1 := pm_yes + kalshi_no
        let cost_with_fees1 := pm_yes * (1 + pm_fee_rate) + kalshi_no * (1 + kalshi_fee_rate)
        let profit1 := 1 - cost_with_fees1
        let profit_pct1 := if cost_with_fees1 > 0 then profit1 / cost_with_fees1 * 100 else 0
        let out1 : List Opportunity :=
          if profit_pct1 ≥ min_profit_pct then
            [{ pm_event := pm_event, kalshi_event := kalshi_event,
               pm_market := pm_market, kalshi_market := kalshi_market,
               direction := "pm_yes_kalshi_no", pm_price := pm_yes,
               kalshi_price := kalshi_no, total_cost := cost1,
               total_cost_with_fees := cost_with_fees1, payout := 1,
               profit := profit1, profit_pct := profit_pct1 }]
          else []
        let cost2 := pm_no + kalshi_yes
        let cost_with_fees2 := pm_no * (1 + pm_fee_rate) + kalshi_yes * (1 + kalshi_fee_rate)
        let profit2 := 1 - cost_with_fees2
        let profit_pct2 := if cost_with_fees2 > 0 then profit2 / cost_with_fees2 * 100 else 0
        let out2 : List Opportunity :=
          if profit_pct2 ≥ min_profit_pct then
            [{ pm_event := pm_event, kalshi_event := kalshi_event,
               pm_market := pm_market, kalshi_market := kalshi_market,
               direction := "pm_no_kalshi_yes", pm_price := pm_no,
               kalshi_price := kalshi_yes, total_cost := cost2,
               total_cost_with_fees := cost_with_fees2, payout := 1,
               profit := profit2, profit_pct := profit_pct2 }]
          else []
        out1 ++ out2
      | _, _, _, _ => []

/-- `find_arbitrage_opportunities` (src/arbitrage.py lines 5-114), with the
two clients' `get_fee_rate()` values passed as `pm_fee_rate` and
`kalshi_fee_rate` (they are the constants `0.002` and `0.0` per client
class): each matched pair appends its `detect_pair` contribution in order. -/
def find_arbitrage_opportunities :
    List (Event × Event) → ℚ → ℚ → ℚ → List Opportunity
  | [], _, _, _ => []
  | (pm_event, kalshi_event) :: rest, pm_fee_rate, kalshi_fee_rate, min_profit_pct =>
    detect_pair pm_event kalshi_event pm_fee_rate kalshi_fee_rate min_profit_pct ++
      find_arbitrage_opportunities rest pm_fee_rate kalshi_fee_rate min_profit_pct

/-- Modelled from the spec's detector formulas (spec 4.2): the fee-adjusted
cost of buying prices `p` and `q` at fee rates `fp` and `fq`. -/
def spec_fee_cost (p q fp fq : ℚ) : ℚ :=
  p * (1 + fp) + q * (1 + fq)

/-- Modelled from the spec's detector formulas (spec 4.2):
`profit_pct = 100 * (1 - fee_cost) / fee_cost` when `fee_cost > 0`, else 0. -/
def spec_profit_pct (p q fp fq : ℚ) : ℚ :=
  if 0 < spec_fee_cost p q fp fq then
    (1 - spec_fee_cost p q fp fq) / spec_fee_cost p q fp fq * 100
  else 0

/-! ### write_scan_stats / get_stats (src/stats_writer.py)

The stats file is modelled as `StatsFile`: absent, unreadable-or-corrupt, or
a parsed store.  The optional display-only keys of a history entry
(`pm_sample`, `manifold_sample`, `matched_details`) are omitted: they are
only attached to the snapshot for the dashboard and play no part in the
history bound, the running totals or the best-opportunity update. -/

/-- A summarized opportunity as embedded in a history entry
(src/stats_writer.py lines 61-73).  `pm_no` and `manifold_yes` come from
`markets[0].get('no_price', 0)` / `.get('yes_price', 0)`: the key is always
present on a normalized market, so `dict.get` returns its value as-is —
possibly `None` — and the `0` default is dead; hence `Option ℚ`. -/
structure OppSummary where
  title : String
  direction : String
  profit_pct : ℚ
  profit : ℚ
  pm_yes : ℚ
  pm_no : Option ℚ
  manifold_yes : Option ℚ
  manifold_no : ℚ
  deriving DecidableEq

/-- The default (empty) market dict in the source's
`.get('markets', [{}])[0]` chain.  It is only reachable when the
`'markets'` key is missing altogether, which never happens on a normalized
event; kept for the data model's completeness. -/
def default_market : Market :=
  { id := "", question := "", yes_price := none, no_price := none }

/-- Build one opportunity summary (src/stats_writer.py lines 62-71).
`opp['pm_event']['markets'][0]` and `opp['kalshi_event']['markets'][0]`
raise IndexError when the event's markets list is empty: Python's
`.get('markets', [{}])` default applies only to a *missing* key, and the
normalized events always carry the key, so an empty list reaches `[][0]`.
The summary therefore fails (`none`) in that case. -/
def mk_opp_summary (opp : Opportunity) : Option OppSummary :=
  match opp.pm_event.markets, opp.kalshi_event.markets with
  | pm_market :: _, kalshi_market :: _ =>
    some { title := opp.pm_event.title.take 60
           direction := opp.direction
           profit_pct := opp.profit_pct
           profit := opp.profit
           pm_yes := opp.pm_price
           pm_no := pm_market.no_price
           manifold_yes := kalshi_market.yes_price
           manifold_no := opp.kalshi_price }
  | _, _ => none

/-- One `current_scan` history entry (src/stats_writer.py lines 54-74). -/
structure ScanRec where
  timestamp : String
  pm_events : ℕ
  manifold_events : ℕ
  matched : ℕ
  opportunities_count : ℕ
  alerts_sent : ℕ
  opportunities : List OppSummary
  deriving DecidableEq

/-- The `best_opportunity` record (src/stats_writer.py lines 124-129). -/
structure BestOpp where
  title : String
  profit_pct : ℚ
  profit : ℚ
  timestamp : String
  deriving DecidableEq

/-- The persisted store (src/stats_writer.py lines 44-51 give its empty
initialization). -/
structure StatsStore where
  scan_history : List ScanRec
  total_scans : ℕ
  total_opportunities : ℕ
  total_alerts : ℕ
  best_opportunity : Option BestOpp
  last_scan : Option ScanRec
  deriving DecidableEq

/-- The fresh store created when the stats file does not exist
(src/stats_writer.py lines 43-51). -/
def empty_stats : StatsStore :=
  { scan_history := [], total_scans := 0, total_opportunities := 0,
    total_alerts := 0, best_opportunity := none, last_scan := none }

/-- State of the stats file on disk: missing, present but failing to
open/parse, or a parsed store. -/
inductive StatsFile where
  | absent
  | corrupt
  | good (s : StatsStore)
  deriving DecidableEq

/-- The arguments of one `write_scan_stats` call (src/stats_writer.py lines
13-23), with the ambient `datetime.now(timezone.utc).isoformat()` supplied
as the `timestamp` input. -/
structure ScanInput where
  pm_events_count : ℕ
  manifold_events_count : ℕ
  matched_count : ℕ
  opportunities_count : ℕ
  alerts_sent : ℕ
  opportunities : List Opportunity
  timestamp : String
  deriving DecidableEq

/-- The `current_scan` entry built from one call's arguments
(src/stats_writer.py lines 54-74, without the optional display keys).  The
opportunity-summary comprehension evaluates a summary for every
opportunity; if any of them raises (empty markets list), the whole entry
fails to build. -/
def mk_scan_record (inp : ScanInput) : Option ScanRec :=
  (inp.opportunities.mapM mk_opp_summary).map (fun summaries =>
    { timestamp := inp.timestamp
      pm_events := inp.pm_events_count
      manifold_events := inp.manifold_events_count
      matched := inp.matched_count
      opportunities_count := inp.opportunities_count
      alerts_sent := inp.alerts_sent
      opportunities := summaries })

/-- Python's `max(opportunities, key=lambda x: x.get('profit_pct', 0))`:
the first element attaining the maximum `profit_pct` (Python's `max` only
replaces the running maximum on a strictly greater key). -/
def max_by_profit : List Opportunity → Option Opportunity
  | [] => none
  | o :: rest =>
    some (rest.foldl (fun b x => if x.profit_pct > b.profit_pct then x else b) o)

/-- The `best_opportunity` dict written on an update
(src/stats_writer.py lines 124-129). -/
def mk_best (o : Opportunity) (ts : String) : BestOpp :=
  { title := o.pm_event.title.take 60, profit_pct := o.profit_pct,
    profit := o.profit, timestamp := ts }

/-- The successful body of `write_scan_stats` on a loaded (or fresh) store
(src/stats_writer.py lines 109-129), given the already-built `current_scan`
entry: append the new entry, set `total_scans` to the length of the
not-yet-truncated history, add the cycle counts to the running totals, set
`last_scan`, truncate the history to its last 100 entries, and replace
`best_opportunity` only when the cycle has opportunities and either no best
is stored or the cycle best's `profit_pct` is strictly greater. -/
def write_step (s : StatsStore) (current : ScanRec) (inp : ScanInput) : StatsStore :=
  let h1 := s.scan_history ++ [current]
  let h2 := if 100 < h1.length then h1.drop (h1.length - 100) else h1
  let best :=
    match max_by_profit inp.opportunities with
    | none => s.best_opportunity
    | some b =>
      match s.best_opportunity with
      | none => some (mk_best b inp.timestamp)
      | some old =>
        if b.profit_pct > old.profit_pct then some (mk_best b inp.timestamp)
        else s.best_opportunity
  { scan_history := h2
    total_scans := h1.length
    total_opportunities := s.total_opportunities + inp.opportunities_count
    total_alerts := s.total_alerts + inp.alerts_sent
    best_opportunity := best
    last_scan := some current }

/-- `write_scan_stats` (src/stats_writer.py lines 13-136) as a transition on
the stats file.  The whole body sits in one `try/except` that only prints on
failure, and it performs no write until the final `json.dump`, so any raise
leaves the file exactly as it was and drops the cycle's record.  Two raises
are reachable on this interface: a file that exists but cannot be read or
parsed makes `json.load` raise (line 42), and building `current_scan`
raises IndexError when an opportunity's event has an empty markets list
(line 68) — on an absent or loaded file alike.  A missing file is replaced
by the fresh empty store before the update. -/
def write_scan_stats (fs : StatsFile) (inp : ScanInput) : StatsFile :=
  match fs with
  | .absent =>
    match mk_scan_record inp with
    | some current => .good (write_step empty_stats current inp)
    | none => .absent
  | .corrupt => .corrupt
  | .good s =>
    match mk_scan_record inp with
    | some current => .good (write_step s current inp)
    | none => .good s

/-- `get_stats` (src/stats_writer.py lines 139-147): the parsed store, or
`None` when the file is missing or unreadable. -/
def get_stats : StatsFile → Option StatsStore
  | .good s => some s
  | _ => none

/-- A sequence of `write_scan_stats` calls, oldest first. -/
def run_writes : StatsFile → List ScanInput → StatsFile
  | fs, [] => fs
  | fs, inp :: rest => run_writes (write_scan_stats fs inp) rest

/-! ### The scan loop's dispatch and cycle (src/paper_trader.py) -/

/-- `last_alerted.get(event_id, 0)` (src/paper_trader.py line 151): the
cooldown map modelled as an association list, missing keys reading as 0. -/
def dict_get (m : List (String × ℚ)) (k : String) : ℚ :=
  match m.find? (fun p => p.1 == k) with
  | some p => p.2
  | none => 0

/-- `last_alerted[event_id] = now` (src/paper_trader.py line 154). -/
def dict_set (m : List (String × ℚ)) (k : String) (v : ℚ) : List (String × ℚ) :=
  if m.any (fun p => p.1 == k) then
    m.map (fun p => if p.1 == k then (k, v) else p)
  else m ++ [(k, v)]

/-- The cooldown key (src/paper_trader.py line 148):
`f"{pm_event['id']}_{manifold_event['id']}_{opp['direction']}"`. -/
def cooldown_key (opp : Opportunity) : String :=
  opp.pm_event.id ++ "_" ++ opp.kalshi_event.id ++ "_" ++ opp.direction

/-- One iteration of the dispatch loop (src/paper_trader.py lines 128-186)
on the `(alerts_sent, last_alerted)` state: suppress (`continue`) when
`now - last_alerted.get(event_id, 0) < ALERT_COOLDOWN_SECONDS`, otherwise
stamp the key with `now` and count the alert.  Printing and the
best-effort Telegram send (whose errors are swallowed in
`send_telegram_msg`) do not touch this state. -/
def dispatch_step (cooldown now : ℚ) (st : ℕ × List (String × ℚ))
    (opp : Opportunity) : ℕ × List (String × ℚ) :=
  if now - dict_get st.2 (cooldown_key opp) < cooldown then st
  else (st.1 + 1, dict_set st.2 (cooldown_key opp) now)

/-- The dispatch loop over a cycle's opportunities, starting from
`alerts_sent = 0` (src/paper_trader.py lines 126-186).  The loop reads
`time.time()` once per opportunity; the readings within one in-memory
dispatch pass are modelled as the single instant `now`. -/
def dispatch_all (cooldown now : ℚ) (opps : List Opportunity)
    (last_alerted : List (String × ℚ)) : ℕ × List (String × ℚ) :=
  opps.foldl (dispatch_step cooldown now) (0, last_alerted)

/-- Outcome of one provider fetch, before its boundary handling: the
normalized events, or a raised error (network/auth/parse). -/
inductive FetchResult where
  | ok (events : List Event)
  | failed (msg : String)
  deriving DecidableEq

/-- The Manifold fetch boundary (src/platforms/manifold.py lines 32-50): the
request/parse block is wrapped in `try/except`, and a failure is logged and
returned as `[]` — zero events for the cycle. -/
def manifold_fetch_boundary : FetchResult → List Event
  | .ok events => events
  | .failed _ => []

/-- The Polymarket fetch boundary (src/platforms/polymarket.py lines
87-167): `get_events` has no `try/except` around its HTTP request or JSON
parse, so a failure propagates to the caller. -/
def polymarket_fetch_boundary : FetchResult → Except String (List Event)
  | .ok events => .ok events
  | .failed msg => .error msg

/-- The orchestrator state that survives across cycles: the in-memory
cooldown map and the on-disk stats file. -/
structure CycleState where
  last_alerted : List (String × ℚ)
  stats_file : StatsFile
  deriving DecidableEq

/-- What one loop iteration did: the successor state, whether the body ran
to completion or was cut short by the outer `except`, the chosen sleep
(`SCAN_INTERVAL = 60` or the recovery 10 seconds), the cycle's counts, and
whether `write_scan_stats` was reached. -/
structure CycleReport where
  state : CycleState
  completed : Bool
  sleep_seconds : ℚ
  matched_count : ℕ
  opportunities_count : ℕ
  alerts_sent : ℕ
  stats_write_reached : Bool
  deriving DecidableEq

/-- One iteration of `main`'s `while True` loop (src/paper_trader.py lines
77-211) with the constants of lines 17-33: fetch from both platforms
(Polymarket first; an error raised there is caught only by the loop's outer
`except`, which skips matching, detection, dispatch and stats and sleeps 10
seconds), then match with threshold `0.5` and tolerance 3 days, detect with
fee rates `0.002`/`0.0` and minimum profit `0.5`, dispatch with the
1800-second cooldown, and record the cycle's stats. -/
def run_scan_cycle (pm_fetch manifold_fetch : FetchResult) (now : ℚ)
    (ts : String) (st : CycleState) : CycleReport :=
  match polymarket_fetch_boundary pm_fetch with
  | .error _ =>
    { state := st, completed := false, sleep_seconds := 10,
      matched_count := 0, opportunities_count := 0, alerts_sent := 0,
      stats_write_reached := false }
  | .ok pm_events =>
    let manifold_events := manifold_fetch_boundary manifold_fetch
    let matched := match_events pm_events manifold_events (1/2) 3
    let opps := find_arbitrage_opportunities matched (2/1000) 0 (1/2)
    let d := dispatch_all (30 * 60) now opps st.last_alerted
    let inp : ScanInput :=
      { pm_events_count := pm_events.length
        manifold_events_count := manifold_events.length
        matched_count := matched.length
        opportunities_count := opps.length
        alerts_sent := d.1
        opportunities := opps
        timestamp := ts }
    { state := { last_alerted := d.2, stats_file := write_scan_stats st.stats_file inp }
      completed := true
      sleep_seconds := 60
      matched_count := matched.length
      opportunities_count := opps.length
      alerts_sent := d.1
      stats_write_reached := true }

/-! ### Concrete sample data used to instantiate the theorems -/

/-- Sample Polymarket market: YES at 0.40, NO at 0.60. -/
def sample_market_pm : Market :=
  { id := "m1", question := "q", yes_price := some (2/5), no_price := some (3/5) }

/-- Sample Manifold market: YES at 0.55, NO at 0.45. -/
def sample_market_mf : Market :=
  { id := "m2", question := "q", yes_price := some (11/20), no_price := some (9/20) }

/-- Sample Polymarket event. -/
def sample_pm_event : Event :=
  { id := "pm1", title := "btc", end_date := 0,
    markets := [sample_market_pm] }

/-- Sample Manifold event, resolving at the same instant as
`sample_pm_event` and with an identical lower-cased title. -/
def sample_mf_event : Event :=
  { id := "mf1", title := "BTC", end_date := 0,
    markets := [sample_market_mf] }

/-- A Manifold event resolving one second after `sample_pm_event`. -/
def sample_late_event : Event :=
  { id := "mf2", title := "BTC", end_date := 1, markets := [] }

/-- An event whose title shares no character with `sample_xyz_event`'s. -/
def sample_abc_event : Event :=
  { id := "a", title := "abc", end_date := 0, markets := [] }

/-- See `sample_abc_event`. -/
def sample_xyz_event : Event :=
  { id := "b", title := "xyz", end_date := 0, markets := [] }

/-- The direction-1 opportunity of the sample pair (0.40 YES on Polymarket
plus 0.45 NO on Manifold at fee rates 0.002 and 0). -/
def sample_opportunity : Opportunity :=
  { pm_event := sample_pm_event, kalshi_event := sample_mf_event,
    pm_market := sample_market_pm, kalshi_market := sample_market_mf,
    direction := "pm_yes_kalshi_no", pm_price := 2/5, kalshi_price := 9/20,
    total_cost := 17/20, total_cost_with_fees := 2127/2500, payout := 1,
    profit := 373/2500, profit_pct := 37300/2127 }

/-- A small opportunity whose `profit_pct` is exactly 5, built on the
sample events (both with a market, so its summary builds). -/
def sample_opportunity_pct5 : Opportunity :=
  { pm_event := sample_pm_event, kalshi_event := sample_mf_event,
    pm_market := sample_market_pm, kalshi_market := sample_market_mf,
    direction := "pm_yes_kalshi_no", pm_price := 0, kalshi_price := 0,
    total_cost := 0, total_cost_with_fees := 1, payout := 1,
    profit := 0, profit_pct := 5 }

/-- An opportunity whose events have empty markets lists: summarizing it
hits the source's `markets[0]` IndexError. -/
def sample_opportunity_no_markets : Opportunity :=
  { pm_event := sample_abc_event, kalshi_event := sample_xyz_event,
    pm_market := default_market, kalshi_market := default_market,
    direction := "pm_yes_kalshi_no", pm_price := 0, kalshi_price := 0,
    total_cost := 0, total_cost_with_fees := 1, payout := 1,
    profit := 0, profit_pct := 5 }

/-- A `write_scan_stats` input with no opportunities. -/
def trivial_scan_input : ScanInput :=
  { pm_events_count := 0, manifold_events_count := 0, matched_count := 0,
    opportunities_count := 0, alerts_sent := 0, opportunities := [],
    timestamp := "t" }

/-- The history entry `trivial_scan_input` builds. -/
def trivial_scan_record : ScanRec :=
  { timestamp := "t", pm_events := 0, manifold_events := 0, matched := 0,
    opportunities_count := 0, alerts_sent := 0, opportunities := [] }

/-- A `write_scan_stats` input whose one opportunity has `profit_pct = 5`. -/
def sample_scan_input_pct5 : ScanInput :=
  { pm_events_count := 1, manifold_events_count := 1, matched_count := 1,
    opportunities_count := 1, alerts_sent := 0,
    opportunities := [sample_opportunity_pct5], timestamp := "t1" }

/-- The summary `sample_opportunity_pct5` builds. -/
def sample_summary_pct5 : OppSummary :=
  { title := "btc", direction := "pm_yes_kalshi_no", profit_pct := 5,
    profit := 0, pm_yes := 0, pm_no := some (3/5),
    manifold_yes := some (11/20), manifold_no := 0 }

/-- The history entry `sample_scan_input_pct5` builds. -/
def sample_record_pct5 : ScanRec :=
  { timestamp := "t1", pm_events := 1, manifold_events := 1, matched := 1,
    opportunities_count := 1, alerts_sent := 0,
    opportunities := [sample_summary_pct5] }

/-- A `write_scan_stats` input whose opportunity summary cannot be built:
its events carry empty markets lists. -/
def sample_crash_input : ScanInput :=
  { pm_events_count := 0, manifold_events_count := 0, matched_count := 0,
    opportunities_count := 1, alerts_sent := 0,
    opportunities := [sample_opportunity_no_markets], timestamp := "t2" }

/-- A store already holding a best opportunity with `profit_pct = 5`. -/
def sample_store_best5 : StatsStore :=
  { scan_history := [], total_scans := 3, total_opportunities := 1,
    total_alerts := 0,
    best_opportunity := some { title := "x", profit_pct := 5, profit := 1/10, timestamp := "t0" },
    last_scan := none }

/-! ### Helper lemmas: the matcher's candidate scan -/

/-- Invariant of `select_best_match`: either the scan returns the incoming
best and every in-tolerance candidate at or above the threshold scores at
most the incoming best similarity, or it returns some candidate `k` — in
tolerance, at or above the threshold, strictly above the incoming best
similarity — such that every earlier qualifying candidate scores strictly
below `k` and every later qualifying candidate scores at most `k`. -/
theorem select_best_match_spec (pm : Event) (thr : ℚ) (tol : ℤ) :
    ∀ (ks : List Event) (best : Option Event) (bs : ℚ),
      (select_best_match pm thr tol ks best bs = best ∧
        ∀ j ∈ ks, in_tolerance pm j tol →
          thr ≤ calculate_title_similarity pm.title j.title →
          calculate_title_similarity pm.title j.title ≤ bs) ∨
      (∃ l₁ k l₂, ks = l₁ ++ k :: l₂ ∧
        select_best_match pm thr tol ks best bs = some k ∧
        in_tolerance pm k tol ∧
        thr ≤ calculate_title_similarity pm.title k.title ∧
        bs < calculate_title_similarity pm.title k.title ∧
        (∀ j ∈ l₁, in_tolerance pm j tol →
          thr ≤ calculate_title_similarity pm.title j.title →
          calculate_title_similarity pm.title j.title <
            calculate_title_similarity pm.title k.title) ∧
        (∀ j ∈ l₂, in_tolerance pm j tol →
          thr ≤ calculate_title_similarity pm.title j.title →
          calculate_title_similarity pm.title j.title ≤
            calculate_title_similarity pm.title k.title)) := by
  intro ks
  induction ks with
  | nil =>
    intro best bs
    left
    exact ⟨rfl, by simp⟩
  | cons k ks ih =>
    intro best bs
    by_cases hdate : date_diff_seconds pm k > ((tol * 24 * 60 * 60 : ℤ) : ℚ)
    · have heq : select_best_match pm thr tol (k :: ks) best bs =
          select_best_match pm thr tol ks best bs := by
        rw [select_best_match, if_pos hdate]
      rcases ih best bs with ⟨h1, h2⟩ | ⟨l₁, k₀, l₂, hks, hres, hk₀t, hk₀thr, hk₀bs, hl₁, hl₂⟩
      · left
        refine ⟨heq.trans h1, ?_⟩
        intro j hj hjt hjthr
        rcases List.mem_cons.mp hj with rfl | hj'
        · exact absurd hdate hjt
        · exact h2 j hj' hjt hjthr
      · right
        refine ⟨k :: l₁, k₀, l₂, by simp [hks], heq.trans hres, hk₀t, hk₀thr, hk₀bs, ?_, hl₂⟩
        intro j hj hjt hjthr
        rcases List.mem_cons.mp hj with rfl | hj'
        · exact absurd hdate hjt
        · exact hl₁ j hj' hjt hjthr
    · by_cases hupd : thr ≤ calculate_title_similarity pm.title k.title ∧
          bs < calculate_title_similarity pm.title k.title
      · have heq : select_best_match pm thr tol (k :: ks) best bs =
            select_best_match pm thr tol ks (some k)
              (calculate_title_similarity pm.title k.title) := by
          rw [select_best_match, if_neg hdate, if_pos hupd]
        rcases ih (some k) (calculate_title_similarity pm.title k.title) with
          ⟨h1, h2⟩ | ⟨l₁, k₀, l₂, hks, hres, hk₀t, hk₀thr, hk₀bs, hl₁, hl₂⟩
        · right
          exact ⟨[], k, ks, rfl, heq.trans h1, hdate, hupd.1, hupd.2, by simp, h2⟩
        · right
          refine ⟨k :: l₁, k₀, l₂, by simp [hks], heq.trans hres, hk₀t, hk₀thr,
            lt_trans hupd.2 hk₀bs, ?_, hl₂⟩
          intro j hj hjt hjthr
          rcases List.mem_cons.mp hj with rfl | hj'
          · exact hk₀bs
          · exact hl₁ j hj' hjt hjthr
      · have heq : select_best_match pm thr tol (k :: ks) best bs =
            select_best_match pm thr tol ks best bs := by
          rw [select_best_match, if_neg hdate, if_neg hupd]
        have hkle : thr ≤ calculate_title_similarity pm.title k.title →
            calculate_title_similarity pm.title k.title ≤ bs :=
          fun hthr => le_of_not_lt (fun hlt => hupd ⟨hthr, hlt⟩)
        rcases ih best bs with ⟨h1, h2⟩ | ⟨l₁, k₀, l₂, hks, hres, hk₀t, hk₀thr, hk₀bs, hl₁, hl₂⟩
        · left
          refine ⟨heq.trans h1, ?_⟩
          intro j hj hjt hjthr
          rcases List.mem_cons.mp hj with rfl | hj'
          · exact hkle hjthr
          · exact h2 j hj' hjt hjthr
        · right
          refine ⟨k :: l₁, k₀, l₂, by simp [hks], heq.trans hres, hk₀t, hk₀thr, hk₀bs, ?_, hl₂⟩
          intro j hj hjt hjthr
          rcases List.mem_cons.mp hj with rfl | hj'
          · exact lt_of_le_of_lt (hkle hjthr) hk₀bs
          · exact hl₁ j hj' hjt hjthr

/-- Conversely, a successful candidate scan for a listed source event puts
the pair in `match_events`. -/
theorem match_events_mem_of_select :
    ∀ (pms ks : List Event) (thr : ℚ) (tol : ℤ) (pm B : Event),
      pm ∈ pms → select_best_match pm thr tol ks none 0 = some B →
      (pm, B) ∈ match_events pms ks thr tol := by
  intro pms
  induction pms with
  | nil => intro ks thr tol pm B h; exact absurd h (List.not_mem_nil pm)
  | cons q rest ih =>
    intro ks thr tol pm B hmem hsel
    rw [match_events]
    rcases List.mem_cons.mp hmem with rfl | hmem'
    · rw [hsel]
      exact List.mem_cons_self ..
    · cases select_best_match q thr tol ks none 0 with
      | some k => exact List.mem_cons_of_mem _ (ih ks thr tol pm B hmem' hsel)
      | none => exact ih ks thr tol pm B hmem' hsel

/-- Membership in `match_events` traces back to the source event's candidate
scan. -/
theorem match_events_mem {pms ks : List Event} {thr : ℚ} {tol : ℤ} {A B : Event}
    (h : (A, B) ∈ match_events pms ks thr tol) :
    A ∈ pms ∧ select_best_match A thr tol ks none 0 = some B := by
  induction pms with
  | nil => simp [match_events] at h
  | cons pm rest ih =>
    rw [match_events] at h
    cases hsel : select_best_match pm thr tol ks none 0 with
    | some k =>
      rw [hsel] at h
      rcases List.mem_cons.mp h with heq | h'
      · obtain ⟨rfl, rfl⟩ := Prod.mk.injEq .. |>.mp heq
        exact ⟨List.mem_cons_self .., hsel⟩
      · exact ⟨List.mem_cons_of_mem _ (ih h').1, (ih h').2⟩
    | none =>
      rw [hsel] at h
      exact ⟨List.mem_cons_of_mem _ (ih h).1, (ih h).2⟩

/-- Each source event contributes at most one matched pair, in source
order: the first components of `match_events` form a sublist of the source
events. -/
theorem match_events_fst_sublist (pms ks : List Event) (thr : ℚ) (tol : ℤ) :
    ((match_events pms ks thr tol).map Prod.fst).Sublist pms := by
  induction pms with
  | nil => simp [match_events]
  | cons pm rest ih =>
    rw [match_events]
    cases select_best_match pm thr tol ks none 0 with
    | some k => exact List.Sublist.cons₂ _ ih
    | none => exact List.Sublist.cons _ ih

/-- C6: for every source event of `match_events`, among the target
candidates within date tolerance the selected match is the one with the
strictly highest similarity score that is at least the similarity
threshold — every earlier qualifying candidate scores strictly below it
(so equal-score ties go to the first encountered, the running-best
comparison being strict) and every later qualifying candidate scores at
most it; a source event with some in-tolerance candidate at or above the
threshold with positive score does get a match; and each source event
yields at most one matched pair. -/
theorem matcher_picks_first_strict_max :
    (∀ (pms ks : List Event) (thr : ℚ) (tol : ℤ) (A B : Event),
      (A, B) ∈ match_events pms ks thr tol →
      ∃ l₁ l₂, ks = l₁ ++ B :: l₂ ∧ in_tolerance A B tol ∧
        thr ≤ calculate_title_similarity A.title B.title ∧
        (∀ j ∈ l₁, in_tolerance A j tol →
          thr ≤ calculate_title_similarity A.title j.title →
          calculate_title_similarity A.title j.title <
            calculate_title_similarity A.title B.title) ∧
        (∀ j ∈ l₂, in_tolerance A j tol →
          thr ≤ calculate_title_similarity A.title j.title →
          calculate_title_similarity A.title j.title ≤
            calculate_title_similarity A.title B.title)) ∧
    (∀ (pms ks : List Event) (thr : ℚ) (tol : ℤ) (pm : Event),
      pm ∈ pms →
      (∃ k ∈ ks, in_tolerance pm k tol ∧
        thr ≤ calculate_title_similarity pm.title k.title ∧
        0 < calculate_title_similarity pm.title k.title) →
      ∃ B, (pm, B) ∈ match_events pms ks thr tol) ∧
    (∀ (pms ks : List Event) (thr : ℚ) (tol : ℤ),
      ((match_events pms ks thr tol).map Prod.fst).Sublist pms) := by
  refine ⟨?_, ?_, match_events_fst_sublist⟩
  · intro pms ks thr tol A B hmem
    obtain ⟨-, hsel⟩ := match_events_mem hmem
    rcases select_best_match_spec A thr tol ks none 0 with ⟨h1, -⟩ |
      ⟨l₁, k₀, l₂, hks, hres, ht, hthr, -, hl₁, hl₂⟩
    · rw [h1] at hsel
      exact Option.noConfusion hsel
    · rw [hres] at hsel
      obtain rfl : k₀ = B := Option.some.injEq .. |>.mp hsel
      exact ⟨l₁, l₂, hks, ht, hthr, hl₁, hl₂⟩
  · intro pms ks thr tol pm hpm hex
    obtain ⟨k, hk, hkt, hkthr, hkpos⟩ := hex
    rcases select_best_match_spec pm thr tol ks none 0 with ⟨-, h2⟩ |
      ⟨l₁, k₀, l₂, -, hres, -, -, -, -, -⟩
    · exact absurd (h2 k hk hkt hkthr) (not_le.mpr hkpos)
    · exact ⟨k₀, match_events_mem_of_select pms ks thr tol pm k₀ hpm hres⟩

/-- C6 witness: on the sample events the theorem's hypotheses hold and the
selected pair decomposes as stated. -/
theorem matcher_picks_first_strict_max_witness :
    ∃ l₁ l₂, [sample_mf_event] = l₁ ++ sample_mf_event :: l₂ ∧
      in_tolerance sample_pm_event sample_mf_event 1 ∧
      (1 : ℚ)/2 ≤ calculate_title_similarity sample_pm_event.title sample_mf_event.title ∧
      (∀ j ∈ l₁, in_tolerance sample_pm_event j 1 →
        (1 : ℚ)/2 ≤ calculate_title_similarity sample_pm_event.title j.title →
        calculate_title_similarity sample_pm_event.title j.title <
          calculate_title_similarity sample_pm_event.title sample_mf_event.title) ∧
      (∀ j ∈ l₂, in_tolerance sample_pm_event j 1 →
        (1 : ℚ)/2 ≤ calculate_title_similarity sample_pm_event.title j.title →
        calculate_title_similarity sample_pm_event.title j.title ≤
          calculate_title_similarity sample_pm_event.title sample_mf_event.title) :=
  matcher_picks_first_strict_max.1 [sample_pm_event] [sample_mf_event] (1/2) 1
    sample_pm_event sample_mf_event (by with_unfolding_all decide)

/-- C7: events whose resolution times differ by strictly more than
`date_tolerance_days`, compared exactly in seconds, are never paired by
`match_events` whatever their similarity; and a candidate at exactly the
tolerance boundary passes the date filter, so it is matched whenever its
similarity qualifies. -/
theorem matcher_date_filter_exact :
    (∀ (pms ks : List Event) (thr : ℚ) (tol : ℤ) (A B : Event),
      date_diff_seconds A B > ((tol * 24 * 60 * 60 : ℤ) : ℚ) →
      (A, B) ∉ match_events pms ks thr tol) ∧
    (∀ (pm k : Event) (thr : ℚ) (tol : ℤ),
      date_diff_seconds pm k = ((tol * 24 * 60 * 60 : ℤ) : ℚ) →
      thr ≤ calculate_title_similarity pm.title k.title →
      0 < calculate_title_similarity pm.title k.title →
      match_events [pm] [k] thr tol = [(pm, k)]) := by
  constructor
  · intro pms ks thr tol A B hfar hmem
    obtain ⟨-, hsel⟩ := match_events_mem hmem
    rcases select_best_match_spec A thr tol ks none 0 with ⟨h1, -⟩ |
      ⟨l₁, k₀, l₂, hks, hres, ht, -, -, -, -⟩
    · rw [h1] at hsel
      exact Option.noConfusion hsel
    · rw [hres] at hsel
      obtain rfl : k₀ = B := Option.some.injEq .. |>.mp hsel
      exact ht hfar
  · intro pm k thr tol heq hthr hpos
    have hnd : ¬ date_diff_seconds pm k > ((tol * 24 * 60 * 60 : ℤ) : ℚ) :=
      not_lt.mpr (le_of_eq heq)
    have hsel : select_best_match pm thr tol [k] none 0 = some k := by
      rw [select_best_match, if_neg hnd, if_pos ⟨hthr, hpos⟩, select_best_match]
    simp [match_events, hsel]

/-- C7 witness: at tolerance 0 an identically-titled candidate one second
away is rejected, while one resolving at the same instant sits exactly on
the boundary and is matched. -/
theorem matcher_date_filter_exact_witness :
    (sample_pm_event, sample_late_event) ∉
      match_events [sample_pm_event] [sample_late_event] (1/2) 0 ∧
    match_events [sample_pm_event] [sample_mf_event] (1/2) 0 =
      [(sample_pm_event, sample_mf_event)] :=
  ⟨matcher_date_filter_exact.1 [sample_pm_event] [sample_late_event] (1/2) 0
      sample_pm_event sample_late_event (by with_unfolding_all decide),
    matcher_date_filter_exact.2 sample_pm_event sample_mf_event (1/2) 0
      (by with_unfolding_all decide) (by with_unfolding_all decide)
      (by with_unfolding_all decide)⟩

/-- C10: a source event all of whose in-tolerance candidates score exactly
0.0 produces no matched pair even at similarity threshold 0.0: the running
best similarity starts at 0.0 and is only replaced on a strictly greater
score. -/
theorem zero_score_candidates_never_match :
    ∀ (pms ks : List Event) (tol : ℤ) (A : Event),
      (∀ k ∈ ks, in_tolerance A k tol →
        calculate_title_similarity A.title k.title = 0) →
      ∀ B, (A, B) ∉ match_events pms ks 0 tol := by
  intro pms ks tol A hzero B hmem
  obtain ⟨-, hsel⟩ := match_events_mem hmem
  rcases select_best_match_spec A 0 tol ks none 0 with ⟨h1, -⟩ |
    ⟨l₁, k₀, l₂, hks, hres, ht, -, hbs, -, -⟩
  · rw [h1] at hsel
    exact Option.noConfusion hsel
  · have hk₀ : k₀ ∈ ks := by
      rw [hks]
      exact List.mem_append_right _ (List.mem_cons_self ..)
    rw [hzero k₀ hk₀ ht] at hbs
    exact lt_irrefl 0 hbs

/-- C10 witness: `"abc"` and `"xyz"` share no character, so their
similarity is 0 and the pair is not produced at threshold 0. -/
theorem zero_score_candidates_never_match_witness :
    (sample_abc_event, sample_xyz_event) ∉
      match_events [sample_abc_event] [sample_xyz_event] 0 1 :=
  zero_score_candidates_never_match [sample_abc_event] [sample_xyz_event] 1
    sample_abc_event (by with_unfolding_all decide) sample_xyz_event

/-! ### Helper lemmas: the stats writer -/

/-- `total_scans` after one successful update is the pre-truncation history
length. -/
theorem write_step_total_scans (s : StatsStore) (r : ScanRec) (inp : ScanInput) :
    (write_step s r inp).total_scans = s.scan_history.length + 1 := by
  simp [write_step]

/-- The truncated history length after one successful update. -/
theorem write_step_history_length (s : StatsStore) (r : ScanRec) (inp : ScanInput) :
    (write_step s r inp).scan_history.length = min (s.scan_history.length + 1) 100 := by
  simp only [write_step]
  split
  · simp only [List.length_drop, List.length_append, List.length_cons, List.length_nil]
    omega
  · next h =>
    simp only [List.length_append, List.length_cons, List.length_nil] at h ⊢
    omega

/-- The truncation `if` is equivalent to always dropping all but the last
100 entries (the drop count is 0 when the bound is not exceeded). -/
theorem write_step_scan_history (s : StatsStore) (r : ScanRec) (inp : ScanInput) :
    (write_step s r inp).scan_history =
      (s.scan_history ++ [r]).drop ((s.scan_history ++ [r]).length - 100) := by
  simp only [write_step]
  split
  · rfl
  · next h =>
    rw [Nat.sub_eq_zero_of_le (not_lt.mp h), List.drop_zero]

/-- Keeping the last 100 commutes with append-then-truncate: truncating the
already-truncated history extended by one record equals truncating the full
record sequence extended by that record. -/
theorem drop_last100_append (l : List ScanRec) (r : ScanRec) :
    ((l.drop (l.length - 100) ++ [r]).drop
        ((l.drop (l.length - 100) ++ [r]).length - 100)) =
      (l ++ [r]).drop ((l ++ [r]).length - 100) := by
  have hcomm : l.drop (l.length - 100) ++ [r] = (l ++ [r]).drop (l.length - 100) := by
    rw [List.drop_append_eq_append_drop]
    have h0 : l.length - 100 - l.length = 0 := by omega
    rw [h0, List.drop_zero]
  rw [hcomm, List.drop_drop]
  congr 1
  simp only [List.length_drop, List.length_append, List.length_cons, List.length_nil]
  omega

/-- `run_writes` from a loaded store stays on loaded stores, and the
invariant of C1/C8 is preserved: `total_scans` is the count of record calls
whose entry could be built, capped at 101, and the history is the 100-entry
tail of the successfully built record sequence (calls whose entry fails to
build change nothing). -/
theorem run_writes_invariant :
    ∀ (inputs : List ScanInput) (s₀ : StatsStore) (n : ℕ) (recs : List ScanRec),
      s₀.total_scans = min n 101 →
      recs.length = n →
      s₀.scan_history = recs.drop (recs.length - 100) →
      ∀ s, run_writes (.good s₀) inputs = .good s →
        s.total_scans =
          min (n + inputs.countP (fun i => (mk_scan_record i).isSome)) 101 ∧
        s.scan_history = (recs ++ inputs.filterMap mk_scan_record).drop
          ((recs ++ inputs.filterMap mk_scan_record).length - 100) := by
  intro inputs
  induction inputs with
  | nil =>
    intro s₀ n recs h1 h2 h3 s h
    obtain rfl : s₀ = s := by
      have : StatsFile.good s₀ = .good s := h
      exact StatsFile.good.injEq .. |>.mp this
    simp only [List.countP_nil, Nat.add_zero, List.filterMap_nil, List.append_nil]
    exact ⟨h1, h3⟩
  | cons i rest ih =>
    intro s₀ n recs h1 h2 h3 s h
    have hstep : run_writes (.good s₀) (i :: rest) =
        run_writes (write_scan_stats (.good s₀) i) rest := rfl
    rw [hstep] at h
    cases hmk : mk_scan_record i with
    | none =>
      have hid : write_scan_stats (.good s₀) i = .good s₀ := by
        simp only [write_scan_stats, hmk]
      rw [hid] at h
      obtain ⟨ht, hh⟩ := ih s₀ n recs h1 h2 h3 s h
      constructor
      · rw [ht]
        simp [List.countP_cons, hmk]
      · rw [hh]
        simp [List.filterMap_cons, hmk]
    | some r =>
      have hwr : write_scan_stats (.good s₀) i = .good (write_step s₀ r i) := by
        simp only [write_scan_stats, hmk]
      rw [hwr] at h
      have hlen : s₀.scan_history.length = min n 100 := by
        rw [h3]
        simp only [List.length_drop]
        omega
      have h1' : (write_step s₀ r i).total_scans = min (n + 1) 101 := by
        rw [write_step_total_scans, hlen]
        omega
      have h2' : (recs ++ [r]).length = n + 1 := by
        simp only [List.length_append, List.length_cons, List.length_nil]
        omega
      have h3' : (write_step s₀ r i).scan_history =
          (recs ++ [r]).drop ((recs ++ [r]).length - 100) := by
        rw [write_step_scan_history, h3, drop_last100_append]
      obtain ⟨ht, hh⟩ := ih (write_step s₀ r i) (n + 1) (recs ++ [r]) h1' h2' h3' s h
      constructor
      · rw [ht]
        simp only [List.countP_cons, hmk, Option.isSome_some, if_pos]
        omega
      · rw [hh]
        simp [List.filterMap_cons, hmk, List.append_assoc]

/-- A run from an absent file that ends on a loaded store agrees with the
run started from the fresh empty store: failed record builds leave both
untouched, and the first successful one lands both on the same store. -/
theorem run_writes_absent_to_good :
    ∀ (inputs : List ScanInput) (s : StatsStore),
      run_writes .absent inputs = .good s →
      run_writes (.good empty_stats) inputs = .good s := by
  intro inputs
  induction inputs with
  | nil =>
    intro s h
    exact absurd h (by simp [run_writes])
  | cons i rest ih =>
    intro s h
    rw [run_writes] at h ⊢
    cases hmk : mk_scan_record i with
    | none =>
      simp only [write_scan_stats, hmk] at h ⊢
      exact ih s h
    | some r =>
      simp only [write_scan_stats, hmk] at h ⊢
      exact h

/-- C1 (amended): after any sequence of record calls starting from store
creation, the persisted `total_scans` equals `min(m, 101)` where `m` counts
the calls that actually persisted an entry — the code sets `total_scans` to
the history length after appending but before truncating, so it saturates
at 101; and a call whose update is dropped (its opportunity summaries hit
the empty-markets IndexError) adds nothing. -/
theorem total_scans_saturates_at_101 :
    ∀ (inputs : List ScanInput) (s : StatsStore),
      run_writes .absent inputs = .good s →
      s.total_scans =
        min (inputs.countP (fun i => (mk_scan_record i).isSome)) 101 := by
  intro inputs s h
  have h' := run_writes_absent_to_good inputs s h
  have := run_writes_invariant inputs empty_stats 0 [] rfl rfl rfl s h'
  simpa using this.1

/-- C1 witness: one successful call from creation gives
`total_scans = min 1 101`. -/
theorem total_scans_saturates_at_101_witness :
    (run_writes .absent [trivial_scan_input] =
        .good (write_step empty_stats trivial_scan_record trivial_scan_input)) ∧
      (write_step empty_stats trivial_scan_record trivial_scan_input).total_scans =
        min ([trivial_scan_input].countP (fun i => (mk_scan_record i).isSome)) 101 :=
  ⟨rfl, total_scans_saturates_at_101 [trivial_scan_input] _ rfl⟩

/-- C1 counterexample: after 102 record calls from store creation — all of
them persisting — the stored `total_scans` is 101, not the cumulative call
count 102. -/
theorem total_scans_not_cumulative :
    (get_stats (run_writes .absent (List.replicate 102 trivial_scan_input))).map
        StatsStore.total_scans = some 101 ∧
      (101 : ℕ) ≠ 102 := by
  constructor
  · rfl
  · decide

/-- C8: starting from store creation, the persisted history after any run
of record calls is exactly the most recent 100 recorded entries in order
(newest last) — the entries of the calls whose summaries could be built; in
particular it never exceeds 100 entries, and when the bound is reached the
oldest entries are the ones discarded. -/
theorem scan_history_bounded_recent :
    ∀ (inputs : List ScanInput) (s : StatsStore),
      run_writes .absent inputs = .good s →
      s.scan_history = (inputs.filterMap mk_scan_record).drop
          ((inputs.filterMap mk_scan_record).length - 100) ∧
        s.scan_history.length ≤ 100 := by
  intro inputs s h
  have h' := run_writes_absent_to_good inputs s h
  have := run_writes_invariant inputs empty_stats 0 [] rfl rfl rfl s h'
  have hh := this.2
  simp only [List.nil_append] at hh
  refine ⟨hh, ?_⟩
  rw [hh]
  simp only [List.length_drop]
  omega

/-- C8 witness: a run of two successful calls keeps both records, newest
last; a failing call in between would simply contribute no entry. -/
theorem scan_history_bounded_recent_witness :
    (run_writes .absent [trivial_scan_input, sample_scan_input_pct5] =
        .good (write_step (write_step empty_stats trivial_scan_record
          trivial_scan_input) sample_record_pct5 sample_scan_input_pct5)) ∧
      (write_step (write_step empty_stats trivial_scan_record trivial_scan_input)
          sample_record_pct5 sample_scan_input_pct5).scan_history =
        ([trivial_scan_input, sample_scan_input_pct5].filterMap mk_scan_record).drop
          (([trivial_scan_input, sample_scan_input_pct5].filterMap
            mk_scan_record).length - 100) ∧
      (write_step (write_step empty_stats trivial_scan_record trivial_scan_input)
          sample_record_pct5 sample_scan_input_pct5).scan_history.length ≤ 100 :=
  ⟨rfl,
    (scan_history_bounded_recent [trivial_scan_input, sample_scan_input_pct5] _ rfl).1,
    (scan_history_bounded_recent [trivial_scan_input, sample_scan_input_pct5] _ rfl).2⟩

/-- C3 (amended): `write_scan_stats` never raises to its caller, and it
initializes a fresh empty store — into which the cycle's record is
written — only when the stats file is absent and the record's opportunity
summaries can be built.  When the summary build raises (an opportunity
event with an empty markets list), the absent file stays absent and the
record is lost; when the file exists but is unreadable or corrupt, the load
error is caught the same way and the call returns without recording
anything. -/
theorem corrupt_store_behavior :
    (∀ (inp : ScanInput) (current : ScanRec), mk_scan_record inp = some current →
      write_scan_stats .absent inp = .good (write_step empty_stats current inp) ∧
      (write_step empty_stats current inp).scan_history = [current]) ∧
    (∀ inp : ScanInput, mk_scan_record inp = none →
      write_scan_stats .absent inp = .absent) ∧
    (∀ inp : ScanInput, write_scan_stats .corrupt inp = .corrupt) := by
  refine ⟨?_, ?_, fun _ => rfl⟩
  · intro inp current h
    constructor
    · simp only [write_scan_stats, h]
    · simp [write_step, empty_stats]
  · intro inp h
    simp only [write_scan_stats, h]

/-- C3 witness: an absent file plus a buildable record creates the fresh
store holding exactly that record, while an input whose opportunity has no
markets leaves the absent file absent. -/
theorem corrupt_store_behavior_witness :
    (write_scan_stats .absent trivial_scan_input =
        .good (write_step empty_stats trivial_scan_record trivial_scan_input)) ∧
      (write_step empty_stats trivial_scan_record trivial_scan_input).scan_history =
        [trivial_scan_record] ∧
      write_scan_stats .absent sample_crash_input = .absent :=
  ⟨(corrupt_store_behavior.1 trivial_scan_input trivial_scan_record rfl).1,
    (corrupt_store_behavior.1 trivial_scan_input trivial_scan_record rfl).2,
    corrupt_store_behavior.2.1 sample_crash_input rfl⟩

/-- C3 counterexample: a record call on a corrupt stats file leaves the
file corrupt and records nothing — the store is not reinitialized and the
cycle's record is lost. -/
theorem corrupt_store_drops_record :
    write_scan_stats .corrupt trivial_scan_input = .corrupt ∧
      get_stats (write_scan_stats .corrupt trivial_scan_input) = none ∧
      write_scan_stats .corrupt trivial_scan_input ≠
        .good (write_step empty_stats trivial_scan_record trivial_scan_input) := by
  exact ⟨rfl, rfl, by simp [write_scan_stats]⟩

/-- C9: the stored `best_opportunity` is replaced only when a record call
persists, the cycle has opportunities, and either no best is stored or the
cycle best's `profit_pct` strictly exceeds the stored one — the last
conjunct states this necessary condition for any change; on a persisting
call the replacement happens exactly on a strict increase (or an empty
stored best), an equal `profit_pct` leaving it unchanged, and a call whose
record cannot be built changes nothing. -/
theorem best_opportunity_strict_update :
    ∀ (s : StatsStore) (inp : ScanInput),
      (mk_scan_record inp = none → write_scan_stats (.good s) inp = .good s) ∧
      (∀ current, mk_scan_record inp = some current →
        write_scan_stats (.good s) inp = .good (write_step s current inp) ∧
        (inp.opportunities = [] →
          (write_step s current inp).best_opportunity = s.best_opportunity) ∧
        (∀ b, max_by_profit inp.opportunities = some b →
          (s.best_opportunity = none →
            (write_step s current inp).best_opportunity =
              some (mk_best b inp.timestamp)) ∧
          (∀ old, s.best_opportunity = some old →
            (old.profit_pct < b.profit_pct →
              (write_step s current inp).best_opportunity =
                some (mk_best b inp.timestamp)) ∧
            (b.profit_pct ≤ old.profit_pct →
              (write_step s current inp).best_opportunity =
                s.best_opportunity)))) ∧
      (∀ s', write_scan_stats (.good s) inp = .good s' →
        s'.best_opportunity ≠ s.best_opportunity →
        ∃ b, max_by_profit inp.opportunities = some b ∧
          s'.best_opportunity = some (mk_best b inp.timestamp) ∧
          (s.best_opportunity = none ∨
            ∃ old, s.best_opportunity = some old ∧
              old.profit_pct < b.profit_pct)) := by
  intro s inp
  refine ⟨?_, ?_, ?_⟩
  · intro h
    simp only [write_scan_stats, h]
  · intro current h
    refine ⟨by simp only [write_scan_stats, h], ?_, ?_⟩
    · intro hemp
      simp [write_step, hemp, max_by_profit]
    · intro b hb
      constructor
      · intro hnone
        simp [write_step, hb, hnone]
      · intro old hold
        constructor
        · intro hlt
          simp [write_step, hb, hold, hlt]
        · intro hle
          simp [write_step, hb, hold, not_lt.mpr hle]
  · intro s' hs' hne
    cases hmk : mk_scan_record inp with
    | none =>
      simp only [write_scan_stats, hmk] at hs'
      obtain rfl : s = s' := StatsFile.good.injEq .. |>.mp hs'
      exact absurd rfl hne
    | some current =>
      simp only [write_scan_stats, hmk] at hs'
      obtain rfl : write_step s current inp = s' :=
        StatsFile.good.injEq .. |>.mp hs'
      cases hb : max_by_profit inp.opportunities with
      | none =>
        have : (write_step s current inp).best_opportunity = s.best_opportunity := by
          simp [write_step, hb]
        exact absurd this hne
      | some b =>
        cases hold : s.best_opportunity with
        | none =>
          refine ⟨b, rfl, ?_, Or.inl rfl⟩
          simp [write_step, hb, hold]
        | some old =>
          by_cases hlt : old.profit_pct < b.profit_pct
          · refine ⟨b, rfl, ?_, Or.inr ⟨old, rfl, hlt⟩⟩
            simp [write_step, hb, hold, hlt]
          · have : (write_step s current inp).best_opportunity =
                s.best_opportunity := by
              simp [write_step, hb, hold, hlt]
            exact absurd this hne

/-- C9 witness: a persisting cycle whose best `profit_pct = 5` equals the
stored best's 5 leaves `best_opportunity` unchanged. -/
theorem best_opportunity_strict_update_witness :
    (write_scan_stats (.good sample_store_best5) sample_scan_input_pct5 =
        .good (write_step sample_store_best5 sample_record_pct5
          sample_scan_input_pct5)) ∧
      (write_step sample_store_best5 sample_record_pct5
          sample_scan_input_pct5).best_opportunity =
        sample_store_best5.best_opportunity := by
  have h := (best_opportunity_strict_update sample_store_best5
    sample_scan_input_pct5).2.1 sample_record_pct5 (by with_unfolding_all decide)
  refine ⟨h.1, ?_⟩
  exact ((h.2.2 sample_opportunity_pct5 (by with_unfolding_all decide)).2
    { title := "x", profit_pct := 5, profit := 1/10, timestamp := "t0" } rfl).2
    (by with_unfolding_all decide)

/-! ### Helper lemmas: the cooldown map -/

/-- Looking up a key just stamped returns the stamped time. -/
theorem dict_get_set (m : List (String × ℚ)) (k : String) (v : ℚ) :
    dict_get (dict_set m k v) k = v := by
  rw [dict_set]
  split
  · next h =>
    induction m with
    | nil => simp at h
    | cons p rest ih =>
      simp only [List.map_cons]
      by_cases hp : p.1 == k
      · rw [if_pos hp]
        simp [dict_get]
      · rw [if_neg hp]
        have h' : rest.any (fun p => p.1 == k) := by
          simp only [List.any_cons, Bool.or_eq_true] at h
          rcases h with h1 | h2
          · exact absurd h1 hp
          · exact h2
        have hpf : (p.1 == k) = false := by
          rw [← Bool.not_eq_true]
          exact hp
        have hrec := ih h'
        rw [dict_get] at hrec ⊢
        rw [List.find?_cons, hpf]
        exact hrec
  · induction m with
    | nil => simp [dict_get]
    | cons p rest ih =>
      next h =>
      have hp : ¬ (p.1 == k) := by
        intro hp
        exact h (by simp [List.any_cons, hp])
      have h' : ¬ rest.any (fun p => p.1 == k) := by
        intro h2
        exact h (by simp [List.any_cons, h2])
      have hpf : (p.1 == k) = false := by
        rw [← Bool.not_eq_true]
        exact hp
      have hrec := ih h'
      rw [dict_get] at hrec ⊢
      rw [List.cons_append, List.find?_cons, hpf]
      exact hrec

/-- A key under none of the map's entries reads as 0. -/
theorem dict_get_fresh (m : List (String × ℚ)) (k : String)
    (h : ∀ p ∈ m, ¬ p.1 = k) : dict_get m k = 0 := by
  rw [dict_get]
  have : m.find? (fun p => p.1 == k) = none := by
    rw [List.find?_eq_none]
    intro p hp
    simpa using h p hp
  rw [this]

/-- C4 (amended): with cooldown key `pm_event.id ++ "_" ++
kalshi_event.id ++ "_" ++ direction`, an opportunity whose key was stamped
at time `T` is suppressed — alert count and map unchanged — at every
re-detection at `now` with `now - T < cooldownWindow`, and alerts and
re-stamps the key to `now` when `now - T ≥ cooldownWindow`.  A key never
seen before reads as last-alerted at time 0 (the `get(event_id, 0)`
default), so it alerts exactly when `now - 0 ≥ cooldownWindow` — not
always. -/
theorem cooldown_window_behavior :
    ∀ (cooldown now T : ℚ) (alerts : ℕ) (last : List (String × ℚ))
      (opp : Opportunity),
      (dict_get last (cooldown_key opp) = T → now - T < cooldown →
        dispatch_step cooldown now (alerts, last) opp = (alerts, last)) ∧
      (dict_get last (cooldown_key opp) = T → cooldown ≤ now - T →
        dispatch_step cooldown now (alerts, last) opp =
          (alerts + 1, dict_set last (cooldown_key opp) now) ∧
        dict_get (dict_set last (cooldown_key opp) now) (cooldown_key opp) = now) ∧
      ((∀ p ∈ last, ¬ p.1 = cooldown_key opp) →
        dict_get last (cooldown_key opp) = 0 ∧
        (now - 0 < cooldown →
          dispatch_step cooldown now (alerts, last) opp = (alerts, last)) ∧
        (cooldown ≤ now - 0 →
          dispatch_step cooldown now (alerts, last) opp =
            (alerts + 1, dict_set last (cooldown_key opp) now))) := by
  intro cooldown now T alerts last opp
  refine ⟨?_, ?_, ?_⟩
  · intro hT hlt
    rw [dispatch_step, hT, if_pos hlt]
  · intro hT hge
    refine ⟨?_, dict_get_set ..⟩
    rw [dispatch_step, hT, if_neg (not_lt.mpr hge)]
  · intro hfresh
    have h0 := dict_get_fresh last (cooldown_key opp) hfresh
    refine ⟨h0, ?_, ?_⟩
    · intro hlt
      rw [dispatch_step, h0, if_pos hlt]
    · intro hge
      rw [dispatch_step, h0, if_neg (not_lt.mpr hge)]

/-- C4 witness: a fresh key at `now = 2000 ≥ 1800` alerts and is stamped
with 2000, readable back from the map. -/
theorem cooldown_window_behavior_witness :
    dispatch_step 1800 2000 (0, []) sample_opportunity =
      (1, dict_set [] (cooldown_key sample_opportunity) 2000) ∧
    dict_get (dict_set [] (cooldown_key sample_opportunity) 2000)
      (cooldown_key sample_opportunity) = 2000 :=
  (cooldown_window_behavior 1800 2000 0 0 [] sample_opportunity).2.1 rfl
    (by with_unfolding_all decide)

/-- C4 counterexample: a key never seen before does not always alert.  With
the 1800-second cooldown and the clock at `now = 10`, the fresh key reads
`last_alerted.get(key, 0) = 0` and `10 - 0 < 1800` suppresses the alert:
the alert count stays 0 and the map stays empty. -/
theorem fresh_key_suppressed_at_small_now :
    dispatch_step 1800 10 (0, []) sample_opportunity = (0, []) := by
  with_unfolding_all decide

/-! ### The scan cycle's fetch boundaries -/

/-- C2 (amended): the two fetch boundaries are asymmetric.  A Manifold
fetch failure is caught inside `ManifoldPlatformClient.get_events` and
yields an empty event list, so the cycle proceeds exactly as with zero
Manifold events (matching, detection, dispatch and stats recording all
run).  A Polymarket fetch failure propagates out of
`PolymarketClient.get_events` to the loop's outer handler: the remainder of
the cycle is skipped — no matching, no dispatch, no stats write, state
unchanged — and the loop sleeps the 10-second recovery interval instead of
`SCAN_INTERVAL`; the process itself continues.  When the Polymarket fetch
succeeds the cycle always completes and reaches the stats write. -/
theorem fetch_boundary_asymmetry :
    (∀ (msg : String) (pm_events : List Event) (now : ℚ) (ts : String)
      (st : CycleState),
      run_scan_cycle (.ok pm_events) (.failed msg) now ts st =
        run_scan_cycle (.ok pm_events) (.ok []) now ts st) ∧
    (∀ (msg : String) (mf : FetchResult) (now : ℚ) (ts : String)
      (st : CycleState),
      run_scan_cycle (.failed msg) mf now ts st =
        { state := st, completed := false, sleep_seconds := 10,
          matched_count := 0, opportunities_count := 0, alerts_sent := 0,
          stats_write_reached := false }) ∧
    (∀ (pm_events : List Event) (mf : FetchResult) (now : ℚ) (ts : String)
      (st : CycleState),
      (run_scan_cycle (.ok pm_events) mf now ts st).completed = true ∧
      (run_scan_cycle (.ok pm_events) mf now ts st).stats_write_reached = true ∧
      (run_scan_cycle (.ok pm_events) mf now ts st).sleep_seconds = 60) :=
  ⟨fun _ _ _ _ _ => rfl, fun _ _ _ _ _ => rfl,
    fun pm_events mf now ts st => by
      cases mf <;> exact ⟨rfl, rfl, rfl⟩⟩

/-- C2 counterexample: a Polymarket fetch error aborts the rest of the
cycle — no matching, no dispatch, no stats recording — and triggers the
10-second recovery sleep, so a fetch failure does abort the cycle rather
than being treated as zero events for that source. -/
theorem pm_fetch_error_aborts_cycle :
    run_scan_cycle (.failed "network error") (.ok [sample_mf_event]) 0 "t"
        { last_alerted := [], stats_file := .absent } =
      { state := { last_alerted := [], stats_file := .absent },
        completed := false, sleep_seconds := 10, matched_count := 0,
        opportunities_count := 0, alerts_sent := 0,
        stats_write_reached := false } := rfl

/-! ### Helper lemmas: the opportunity detector -/

/-- A pair where either event has no markets contributes nothing. -/
theorem detect_pair_no_markets (pm ka : Event) (fpm fka minp : ℚ)
    (h : pm.markets = [] ∨ ka.markets = []) :
    detect_pair pm ka fpm fka minp = [] := by
  cases hpm : pm.markets with
  | nil => simp [detect_pair, hpm]
  | cons a tl =>
    rcases h with h | h
    · rw [hpm] at h
      exact absurd h (by simp)
    · simp [detect_pair, hpm, h]

/-- A pair missing any of the four first-market prices contributes
nothing. -/
theorem detect_pair_missing_price (pm ka : Event) (fpm fka minp : ℚ)
    (pmm kam : Market)
    (hpm : pm.markets.head? = some pmm) (hka : ka.markets.head? = some kam)
    (h : pmm.yes_price = none ∨ pmm.no_price = none ∨
      kam.yes_price = none ∨ kam.no_price = none) :
    detect_pair pm ka fpm fka minp = [] := by
  cases hpml : pm.markets with
  | nil =>
    rw [hpml] at hpm
    exact absurd hpm (by simp)
  | cons pmm' tl =>
    rw [hpml] at hpm
    have hq1 : pmm' = pmm := by simpa using hpm
    rw [hq1] at hpml
    cases hkml : ka.markets with
    | nil =>
      rw [hkml] at hka
      exact absurd hka (by simp)
    | cons kam' tk =>
      rw [hkml] at hka
      have hq2 : kam' = kam := by simpa using hka
      rw [hq2] at hkml
      cases hy : pmm.yes_price <;> cases hn : pmm.no_price <;>
        cases hky : kam.yes_price <;> cases hkn : kam.no_price <;>
        simp_all [detect_pair]

/-- With all four prices present, a direction's opportunity is emitted
exactly when its fee-adjusted profit percentage clears the threshold, and
every emitted opportunity's cost/profit fields follow the spec formulas. -/
theorem detect_pair_prices (pm ka : Event) (fpm fka minp : ℚ)
    (pmm kam : Market) (py pn ky kn : ℚ)
    (hpm : pm.markets.head? = some pmm) (hka : ka.markets.head? = some kam)
    (hy : pmm.yes_price = some py) (hn : pmm.no_price = some pn)
    (hky : kam.yes_price = some ky) (hkn : kam.no_price = some kn) :
    ((∃ o ∈ detect_pair pm ka fpm fka minp, o.direction = "pm_yes_kalshi_no") ↔
      minp ≤ spec_profit_pct py kn fpm fka) ∧
    ((∃ o ∈ detect_pair pm ka fpm fka minp, o.direction = "pm_no_kalshi_yes") ↔
      minp ≤ spec_profit_pct pn ky fpm fka) ∧
    (∀ o ∈ detect_pair pm ka fpm fka minp,
      (o.direction = "pm_yes_kalshi_no" →
        o.total_cost = py + kn ∧
        o.total_cost_with_fees = spec_fee_cost py kn fpm fka ∧
        o.profit = 1 - spec_fee_cost py kn fpm fka ∧
        o.profit_pct = spec_profit_pct py kn fpm fka) ∧
      (o.direction = "pm_no_kalshi_yes" →
        o.total_cost = pn + ky ∧
        o.total_cost_with_fees = spec_fee_cost pn ky fpm fka ∧
        o.profit = 1 - spec_fee_cost pn ky fpm fka ∧
        o.profit_pct = spec_profit_pct pn ky fpm fka)) := by
  cases hpml : pm.markets with
  | nil =>
    rw [hpml] at hpm
    exact absurd hpm (by simp)
  | cons pmm' tl =>
    rw [hpml] at hpm
    have hq1 : pmm' = pmm := by simpa using hpm
    rw [hq1] at hpml
    cases hkml : ka.markets with
    | nil =>
      rw [hkml] at hka
      exact absurd hka (by simp)
    | cons kam' tk =>
      rw [hkml] at hka
      have hq2 : kam' = kam := by simpa using hka
      rw [hq2] at hkml
      have hne1 : ("pm_no_kalshi_yes" : String) ≠ "pm_yes_kalshi_no" := by decide
      have hne2 : ("pm_yes_kalshi_no" : String) ≠ "pm_no_kalshi_yes" := by decide
      simp only [detect_pair, hpml, hkml, hy, hn, hky, hkn, spec_profit_pct,
        spec_fee_cost, ge_iff_le, gt_iff_lt]
      by_cases hc1 : minp ≤ if 0 < py * (1 + fpm) + kn * (1 + fka) then
          (1 - (py * (1 + fpm) + kn * (1 + fka))) /
            (py * (1 + fpm) + kn * (1 + fka)) * 100
        else 0 <;>
        by_cases hc2 : minp ≤ if 0 < pn * (1 + fpm) + ky * (1 + fka) then
            (1 - (pn * (1 + fpm) + ky * (1 + fka))) /
              (pn * (1 + fpm) + ky * (1 + fka)) * 100
          else 0 <;>
        simp [hc1, hc2, hne1, hne2]

/-- C5: every matched pair is skipped entirely when either event has no
markets or any of the four first-market prices is missing; pairs contribute
independently and in order; with all four prices present, each direction's
opportunity is emitted iff its `profit_pct` — computed as
`100*(1 - fee_cost)/fee_cost` for `fee_cost = p*(1+feeA) + q*(1+feeB)` when
`fee_cost > 0`, else 0 — is at least `min_profit_pct`, with the emitted
record's cost and profit fields given by those formulas; and on the spec's
example (`yesA = 0.40`, `noB = 0.45`, `feeA = 0.002`, `feeB = 0`) the fee
cost is `0.8508`, the profit `0.1492`, the profit percentage at least 17.5,
so direction 1 is emitted at every threshold up to 17.5. -/
theorem detector_emits_iff_threshold :
    (∀ (pm ka : Event) (fpm fka minp : ℚ),
      pm.markets = [] ∨ ka.markets = [] →
      detect_pair pm ka fpm fka minp = []) ∧
    (∀ (pm ka : Event) (fpm fka minp : ℚ) (pmm kam : Market),
      pm.markets.head? = some pmm → ka.markets.head? = some kam →
      (pmm.yes_price = none ∨ pmm.no_price = none ∨
        kam.yes_price = none ∨ kam.no_price = none) →
      detect_pair pm ka fpm fka minp = []) ∧
    (∀ (pm ka : Event) (rest : List (Event × Event)) (fpm fka minp : ℚ),
      find_arbitrage_opportunities ((pm, ka) :: rest) fpm fka minp =
        detect_pair pm ka fpm fka minp ++
          find_arbitrage_opportunities rest fpm fka minp) ∧
    (∀ (pm ka : Event) (fpm fka minp : ℚ) (pmm kam : Market) (py pn ky kn : ℚ),
      pm.markets.head? = some pmm → ka.markets.head? = some kam →
      pmm.yes_price = some py → pmm.no_price = some pn →
      kam.yes_price = some ky → kam.no_price = some kn →
      ((∃ o ∈ detect_pair pm ka fpm fka minp,
          o.direction = "pm_yes_kalshi_no") ↔
        minp ≤ spec_profit_pct py kn fpm fka) ∧
      ((∃ o ∈ detect_pair pm ka fpm fka minp,
          o.direction = "pm_no_kalshi_yes") ↔
        minp ≤ spec_profit_pct pn ky fpm fka) ∧
      (∀ o ∈ detect_pair pm ka fpm fka minp,
        (o.direction = "pm_yes_kalshi_no" →
          o.total_cost = py + kn ∧
          o.total_cost_with_fees = spec_fee_cost py kn fpm fka ∧
          o.profit = 1 - spec_fee_cost py kn fpm fka ∧
          o.profit_pct = spec_profit_pct py kn fpm fka) ∧
        (o.direction = "pm_no_kalshi_yes" →
          o.total_cost = pn + ky ∧
          o.total_cost_with_fees = spec_fee_cost pn ky fpm fka ∧
          o.profit = 1 - spec_fee_cost pn ky fpm fka ∧
          o.profit_pct = spec_profit_pct pn ky fpm fka))) ∧
    (spec_fee_cost (2/5) (9/20) (2/1000) 0 = 2127/2500 ∧
      1 - spec_fee_cost (2/5) (9/20) (2/1000) 0 = 373/2500 ∧
      (35 : ℚ)/2 ≤ spec_profit_pct (2/5) (9/20) (2/1000) 0 ∧
      ∀ minp : ℚ, minp ≤ 35/2 →
        ∃ o ∈ find_arbitrage_opportunities [(sample_pm_event, sample_mf_event)]
            (2/1000) 0 minp, o.direction = "pm_yes_kalshi_no") := by
  have hfc : spec_fee_cost (2/5) (9/20) (2/1000) 0 = 2127/2500 := by
    norm_num [spec_fee_cost]
  have hpp : spec_profit_pct (2/5) (9/20) (2/1000) 0 = 37300/2127 := by
    rw [spec_profit_pct, hfc, if_pos (by norm_num)]
    norm_num
  refine ⟨detect_pair_no_markets, detect_pair_missing_price,
    fun _ _ _ _ _ _ => rfl, detect_pair_prices, hfc, ?_, ?_, ?_⟩
  · rw [hfc]
    norm_num
  · rw [hpp]
    norm_num
  · intro minp hm
    have hq : minp ≤ spec_profit_pct (2/5) (9/20) (2/1000) 0 := by
      rw [hpp]
      exact le_trans hm (by norm_num)
    obtain ⟨o, ho, hdir⟩ :=
      (detect_pair_prices sample_pm_event sample_mf_event (2/1000) 0 minp
        sample_market_pm sample_market_mf (2/5) (3/5) (11/20) (9/20)
        rfl rfl rfl rfl rfl rfl).1.mpr hq
    refine ⟨o, ?_, hdir⟩
    have hsingle : find_arbitrage_opportunities
        [(sample_pm_event, sample_mf_event)] (2/1000) 0 minp =
        detect_pair sample_pm_event sample_mf_event (2/1000) 0 minp := by
      rw [find_arbitrage_opportunities, find_arbitrage_opportunities,
        List.append_nil]
    rw [hsingle]
    exact ho

/-- C5 witness: at the default threshold `0.5` the sample pair emits the
direction-1 opportunity. -/
theorem detector_emits_iff_threshold_witness :
    ∃ o ∈ find_arbitrage_opportunities [(sample_pm_event, sample_mf_event)]
        (2/1000) 0 (1/2), o.direction = "pm_yes_kalshi_no" :=
  detector_emits_iff_threshold.2.2.2.2.2.2.2 (1/2)
    (by with_unfolding_all decide)

end ArbBot
